import Mathlib

/-!
Verification of the hexchat translator plugin (src/src/lib.rs).

The development shallowly embeds the plugin's session registry, language
catalog, command handlers, dispatch workflows and DeepL backend adapter as
executable Lean definitions, then proves the specified properties about
them.

Modelling conventions:
* The Hexchat host interface is a record `Host`: `get_info("network")` /
  `get_info("channel")` become the `network` / `channel` fields (each
  `Option String`, `none` when the host cannot supply the value), and
  `hc.strip(…, StripBoth)` becomes the `strip` field.
* The shared `HashMap<ChanData, ChanData>` behind the `UserData` is
  embedded as an association list `ChanMap` with insert-overwrites
  semantics; handlers take the map and return the updated map.
* Thread spawning is split into two phases: a handler returns the `Job`
  captured for the background thread, and `run_lsay_job` / `run_recv_job`
  model the thread body plus the `main_thread` marshal-back closure,
  returning the updated map and the list of host API calls performed.
* The network is an oracle `http : DeepLRequest → HttpOutcome` passed to
  `deepl_translate`; `HttpOutcome` mirrors `Result<Response, ureq::Error>`
  combined with the `into_json` parse result.
* A Rust slice-index panic (`word_eol[1]` on a too-short slice) is the
  `RustOutcome.panicked` value; the `?`-early-returns of the `try_…`
  functions are `Option.none` as in the source.
-/

namespace HexchatTranslator

/-- `Eat` return values of Hexchat command/print callbacks
(`hexchat_api::Eat`). `all` fully consumes the event, `hexchat` suppresses
Hexchat's own default handling, `eat_none` lets the event pass through
unhandled. -/
inductive Eat
  | eat_none
  | eat_plugin
  | hexchat
  | all
  deriving DecidableEq, Repr

/-- Channel data, a tuple of two strings (`type ChanData = (String, String)`).
As a key it holds `(network, channel)`; as a value it holds
`(source_language, target_language)`. -/
abbrev ChanData := String × String

/-- The channel map `HashMap<ChanData, ChanData>`, embedded as an
association list whose `mapInsert` overwrites the previous binding for the
same key (as `HashMap::insert` does). -/
abbrev ChanMap := List (ChanData × ChanData)

/-- `HashMap::remove` on the embedded map. -/
def mapRemove (m : ChanMap) (k : ChanData) : ChanMap :=
  m.filter (fun p => !(decide (p.1 = k)))

/-- `HashMap::insert` on the embedded map: overwrites any prior binding. -/
def mapInsert (m : ChanMap) (k v : ChanData) : ChanMap :=
  (k, v) :: mapRemove m k

/-- `HashMap::get(…).cloned()` on the embedded map. -/
def mapGet (m : ChanMap) (k : ChanData) : Option ChanData :=
  (m.find? (fun p => decide (p.1 = k))).map (fun p => p.2)

/-- The Hexchat host facilities the handlers consult on the control
thread: `get_info("network")`, `get_info("channel")` and
`strip(…, StripBoth)`. -/
structure Host where
  network : Option String
  channel : Option String
  strip : String → Option String

/-- Stand-in for `hexchat_api::IRC_MAGENTA` (an external crate constant;
no claim depends on its value). -/
def IRC_MAGENTA : String := "\x0313"

/-- Stand-in for `hexchat_api::IRC_CYAN` (an external crate constant;
no claim depends on its value). -/
def IRC_CYAN : String := "\x0311"

/-- Rust's `str::to_lowercase` as used by this plugin. All catalog names,
codes and user tokens of interest are ASCII, where Unicode lowercasing
agrees with per-character ASCII lowercasing. (Defined structurally so the
kernel can evaluate it, unlike `String.toLower`.) -/
def to_lowercase (s : String) : String :=
  String.mk (s.data.map Char.toLower)

/-- A listing of all the supported languages
(`const SUPPORTED_LANGUAGES: [(&str, &str); 33]`), in declaration order,
including the duplicated Arabic entry and the trailing empty sentinel. -/
def SUPPORTED_LANGUAGES : List (String × String) :=
  [("Arabic",        "ar"), ("Bulgarian",     "bg"), ("Chinese",      "zh"),
   ("Czech",         "cs"), ("Danish",        "da"), ("Dutch",        "nl"),
   ("English",       "en"), ("Estonian",      "et"), ("Finnish",      "fi"),
   ("French",        "fr"), ("German",        "de"), ("Greek",        "el"),
   ("Hungarian",     "hu"), ("Indonesian",    "id"), ("Italian",      "it"),
   ("Japanese",      "ja"), ("Korean",        "ko"), ("Latvian",      "lv"),
   ("Lithuanian",    "lt"), ("Norwegian",     "nb"), ("Polish",       "pl"),
   ("Portuguese",    "pt"), ("Romanian",      "ro"), ("Russian",      "ru"),
   ("Slovak",        "sk"), ("Slovenian",     "sl"), ("Spanish",      "es"),
   ("Swedish",       "sv"), ("Turkish",       "tr"), ("Ukrainian",    "uk"),
   ("Hindi",         "hi"), ("Arabic",        "ar"), ("",             ""  )]

/-- `find_lang`: lowercases the query and returns the first catalog entry
whose display name (lowercased) or code equals it. -/
def find_lang (lang : String) : Option (String × String) :=
  let l := to_lowercase lang
  SUPPORTED_LANGUAGES.find? (fun lang_info => l == to_lowercase lang_info.1 || l == lang_info.2)

/-- `get_channel_langs`: reads the current context from the host and looks
it up in the channel map; `None` when the context cannot be resolved or
has no entry. -/
def get_channel_langs (h : Host) (m : ChanMap) : Option ChanData :=
  match h.network, h.channel with
  | some network, some channel => mapGet m (network, channel)
  | _, _ => Option.none

/-- `activate`: inserts the current context with the chosen language pair,
or prints a diagnostic when the context cannot be resolved. Returns the
updated map and the lines printed. -/
def activate (h : Host) (m : ChanMap) (source dest : String) :
    ChanMap × List String :=
  match h.network, h.channel with
  | some network, some channel =>
      (mapInsert m (network, channel) (source, dest), [])
  | _, _ =>
      (m, [IRC_MAGENTA ++ "Failed to get channel information during activation."])

/-- `deactivate`: removes the current context's entry (no effect when
absent), or prints a diagnostic when the context cannot be resolved. -/
def deactivate (h : Host) (m : ChanMap) : ChanMap × List String :=
  match h.network, h.channel with
  | some network, some channel =>
      (mapRemove m (network, channel), [])
  | _, _ =>
      (m, [IRC_MAGENTA ++ "Failed to get channel information during deactivation."])

/-! ## Translation backend (`deepl_translate` and its data types) -/

/-- `struct DeepLRequest` — the JSON request body sent to the DeepL API. -/
structure DeepLRequest where
  text : List String
  source_lang : Option String
  target_lang : String
  deriving DecidableEq, Repr

/-- `struct DeepLTranslation` — one translated segment of the response. -/
structure DeepLTranslation where
  text : String
  deriving DecidableEq, Repr

/-- `struct DeepLResponse` — the parsed JSON response body. -/
structure DeepLResponse where
  translations : List DeepLTranslation
  deriving DecidableEq, Repr

/-- `ureq::Error`: either an HTTP error status from the server or a
transport-level failure (connection error, read timeout, …). The string is
the error's `Display` rendering. -/
inductive UreqError
  | status (code : Nat) (msg : String)
  | transport (msg : String)
  deriving DecidableEq, Repr

/-- The `Display` text of a `ureq::Error` as interpolated into the
aggregate error message. -/
def UreqError.message : UreqError → String
  | .status _ msg => msg
  | .transport msg => msg

deriving instance DecidableEq for Except

/-- Outcome of `agent.post(…).send_json(…)` followed by
`response.into_json::<DeepLResponse>()`: `ok` carries the parse result of
the body, `err` the `ureq::Error`. -/
inductive HttpOutcome
  | ok (parse : Except String DeepLResponse)
  | err (e : UreqError)
  deriving DecidableEq, Repr

/-- `struct TranslationError` — carried from the worker thread back to the
control thread. -/
structure TranslationError where
  partial_trans : String
  error_msg : String
  over_limit : Bool
  deriving DecidableEq, Repr

/-- `TranslationError::new`. -/
def TranslationError.new (partial_trans error_msg : String) (over_limit : Bool) :
    TranslationError :=
  ⟨partial_trans, error_msg, over_limit⟩

/-- `TranslationError::get_partial_trans`. -/
def TranslationError.get_partial_trans (e : TranslationError) : String :=
  e.partial_trans

/-- `TranslationError::is_over_limit`. -/
def TranslationError.is_over_limit (e : TranslationError) : Bool :=
  e.over_limit

/-- `impl Display for TranslationError`. -/
def TranslationError.display (e : TranslationError) : String :=
  "Translation Error: " ++ e.error_msg

/-- `map_to_deepl_lang`: maps language codes to DeepL-compatible format;
unknown codes pass through unchanged. -/
def map_to_deepl_lang (lang : String) : String :=
  match to_lowercase lang with
  | "zh" => "ZH"
  | "en" => "EN"
  | "de" => "DE"
  | "fr" => "FR"
  | "it" => "IT"
  | "ja" => "JA"
  | "es" => "ES"
  | "nl" => "NL"
  | "pl" => "PL"
  | "pt" => "PT"
  | "ru" => "RU"
  | "bg" => "BG"
  | "cs" => "CS"
  | "da" => "DA"
  | "el" => "EL"
  | "et" => "ET"
  | "fi" => "FI"
  | "hu" => "HU"
  | "id" => "ID"
  | "lv" => "LV"
  | "lt" => "LT"
  | "ro" => "RO"
  | "sk" => "SK"
  | "sl" => "SL"
  | "sv" => "SV"
  | "tr" => "TR"
  | "uk" => "UK"
  | "ar" => "AR"
  | "hi" => "HI"
  | "ko" => "KO"
  | "nb" => "NB"
  | "no" => "NB"
  | _ => lang

/-- The `DeepLRequest` that `deepl_translate` builds for a call: one text,
the mapped source code (omitted when it maps to the sentinel `"auto"`),
and the mapped target code. -/
def mk_request (text source target : String) : DeepLRequest :=
  let deepl_source := map_to_deepl_lang source
  let deepl_target := map_to_deepl_lang target
  { text := [text]
    source_lang := if deepl_source == "auto" then Option.none else some deepl_source
    target_lang := deepl_target }

/-- `deepl_translate`: checks the API key, builds the request, performs the
HTTP call (the oracle `http`), and classifies the outcome. Every failure
carries the original `text` as the partial translation; only an HTTP
status of 403 or 429 marks the error as over-limit. -/
def deepl_translate (api_key : Option String) (http : DeepLRequest → HttpOutcome)
    (text source target : String) : Except TranslationError String :=
  match api_key with
  | Option.none =>
      Except.error (TranslationError.new text
        "DeepL API key not found. Set DEEPL_API_KEY environment variable." false)
  | some _ =>
      match http (mk_request text source target) with
      | HttpOutcome.ok (Except.ok deepl_response) =>
          match deepl_response.translations.head? with
          | some translation => Except.ok translation.text
          | Option.none =>
              Except.error (TranslationError.new text
                "No translation returned from DeepL API" false)
      | HttpOutcome.ok (Except.error err) =>
          Except.error (TranslationError.new text
            ("Failed to parse DeepL response: " ++ err) false)
      | HttpOutcome.err err =>
          let is_over_limit :=
            match err with
            | UreqError.status code _ => code == 403 || code == 429
            | UreqError.transport _ => false
          Except.error (TranslationError.new text
            ("DeepL API request failed: " ++ err.message) is_over_limit)

/-! ## Command handlers -/

/-- Result of a synchronous command handler: the `Eat` value returned to
the host, the channel map after the handler, and the lines it printed. -/
structure CmdResult where
  eat : Eat
  map : ChanMap
  output : List String
  deriving Repr

/-- `SETLANG_HELP`. -/
def SETLANG_HELP : String :=
  "/SETLANG <src> <tgt> - Sets source and target languages for the channel."

/-- `OFFLANG_HELP`. -/
def OFFLANG_HELP : String :=
  "/OFFLANG - Deactivates translation on the channel. This command takes no paramters."

/-- `LISTLANG_HELP`. -/
def LISTLANG_HELP : String :=
  "/LISTLANG - Lists languages supported and their abbrevations. This command takes no parameters."

/-- `LSAY_HELP`. -/
def LSAY_HELP : String :=
  "/LSAY <message> - Sends a translated message to the channel."

/-- `LME_HELP`. -/
def LME_HELP : String :=
  "/LME <message> - Sends a channel action message translated."

/-- The diagnostic `on_cmd_setlang` prints when a language parameter does
not resolve or both resolve to the same entry. -/
def BAD_PARAMS_MSG : String :=
  IRC_MAGENTA ++ "BAD LANGUAGE PARAMETERS. Use /LISTLANG to get a list of " ++
  "supported languages. And don't set translation source and target languages the same."

/-- `on_cmd_setlang`: with exactly two arguments, resolves both in the
catalog; if they resolve to distinct entries it activates the channel with
the canonical short codes, otherwise it prints the bad-parameters
diagnostic; with any other argument count it prints the usage string. -/
def on_cmd_setlang (h : Host) (word : List String) (m : ChanMap) : CmdResult :=
  match word with
  | [_, src_arg, tgt_arg] =>
      match find_lang src_arg, find_lang tgt_arg with
      | some src_lang_info, some tgt_lang_info =>
          if src_lang_info ≠ tgt_lang_info then
            let src_lang := src_lang_info.2
            let tgt_lang := tgt_lang_info.2
            let activated := activate h m src_lang tgt_lang
            { eat := Eat.all
              map := activated.1
              output := activated.2 ++
                [IRC_MAGENTA ++ "TRANSLATION IS ON FOR THIS CHANNEL! " ++
                 src_lang_info.1 ++ " (you) to " ++ tgt_lang_info.1 ++ " (them)."] }
          else
            { eat := Eat.all, map := m, output := [BAD_PARAMS_MSG] }
      | _, _ =>
          { eat := Eat.all, map := m, output := [BAD_PARAMS_MSG] }
  | _ =>
      { eat := Eat.all, map := m, output := ["USAGE: " ++ SETLANG_HELP] }

/-- `on_cmd_offlang`: with no arguments, deactivates the current context
and prints the turned-off line; otherwise prints the usage string. -/
def on_cmd_offlang (h : Host) (word : List String) (m : ChanMap) : CmdResult :=
  if word.length = 1 then
    let deactivated := deactivate h m
    { eat := Eat.all
      map := deactivated.1
      output := deactivated.2 ++ [IRC_MAGENTA ++ "Translation turned OFF for this channel."] }
  else
    { eat := Eat.all, map := m, output := ["USAGE: " ++ OFFLANG_HELP] }

/-- Pads `s` on the right with spaces to width `w` (the effect of Rust's
`{:-15}` / `{:3}` format specifiers on strings). -/
def padTo (s : String) (w : Nat) : String :=
  s ++ String.mk (List.replicate (w - s.length) ' ')

/-- One printed row of the `/LISTLANG` table (three catalog entries). -/
def listlang_row (a b c d e f : String) : String :=
  IRC_CYAN ++ padTo a 15 ++ padTo b 3 ++ "        " ++ padTo c 15 ++ padTo d 3 ++
  "        " ++ padTo e 15 ++ padTo f 3

/-- The `for i in (0..langs.len()).step_by(3)` loop of `on_cmd_listlang`,
consuming exactly three entries per row. -/
def listlang_rows : List (String × String) → List String
  | (a, b) :: (c, d) :: (e, f) :: rest => listlang_row a b c d e f :: listlang_rows rest
  | _ => []

/-- `on_cmd_listlang`: with no arguments prints the supported-language
table; otherwise prints the bare string `"USAGE: "`. It never touches the
channel map (its hook carries `NoData`). -/
def on_cmd_listlang (word : List String) : Eat × List String :=
  if word.length = 1 then
    (Eat.all,
     [""] ++
     [IRC_CYAN ++ "------------------------ Supported Languages ------------------------"] ++
     listlang_rows SUPPORTED_LANGUAGES ++ [""])
  else
    (Eat.all, ["USAGE: "])

/-! ## Dispatch core -/

/-- Outcome of running a Rust function that may hit an index-out-of-bounds
panic (slice indexing such as `word_eol[1]`). -/
inductive RustOutcome (α : Type)
  | ok (val : α)
  | panicked
  deriving DecidableEq, Repr

/-- The data the `/LSAY` / `/LME` handler moves into its worker thread:
the underlying command name (`"SAY"` or `"ME"`), the captured context, the
stripped and the original message, and the session's language pair as
captured from the channel map. -/
structure LsayJob where
  cmd : String
  ctx : ChanData
  strip_msg : String
  message : String
  src_lang : String
  tgt_lang : String
  deriving DecidableEq, Repr

/-- The data the text-event handler moves into its worker thread. -/
structure RecvJob where
  msg_type : String
  ctx : ChanData
  sender : String
  message : String
  strip_msg : String
  mode_char : String
  src_lang : String
  tgt_lang : String
  deriving DecidableEq, Repr

/-- A host API call performed by a marshal-back closure on the control
thread: issue a command in a context, print a line in a context, re-emit a
text event in a context, or print to the front/main window. -/
inductive HostAction
  | command (ctx : ChanData) (text : String)
  | printCtx (ctx : ChanData) (line : String)
  | emitPrint (ctx : ChanData) (event : String) (fields : List String)
  | printMain (line : String)
  deriving DecidableEq, Repr

/-- `try_on_cmd_lsay`: resolves the active language pair for the current
context (returning `Eat::None` without consuming the command when there is
none), reads `word_eol[1]` (a panic when absent), strips it, captures the
context, and hands an `LsayJob` to a worker thread, consuming the command
with `Eat::All`. The `?`-failures of `strip` / `get_info` surface as
`Option.none`. -/
def try_on_cmd_lsay (h : Host) ( _word word_eol : List String) (cmd : String)
    (m : ChanMap) : RustOutcome (Option (Eat × Option LsayJob)) :=
  match get_channel_langs h m with
  | some chan_langs =>
      let src_lang := chan_langs.1
      let tgt_lang := chan_langs.2
      match word_eol.get? 1 with
      | Option.none => RustOutcome.panicked
      | some message =>
          match h.strip message with
          | Option.none => RustOutcome.ok Option.none
          | some strip_msg =>
              match h.network, h.channel with
              | some network, some channel =>
                  RustOutcome.ok (some (Eat.all,
                    some { cmd := cmd, ctx := (network, channel),
                           strip_msg := strip_msg, message := message,
                           src_lang := src_lang, tgt_lang := tgt_lang }))
              | _, _ => RustOutcome.ok Option.none
  | Option.none => RustOutcome.ok (some (Eat.eat_none, Option.none))

/-- The diagnostic printed by the `on_cmd_lsay` / `on_recv_message`
wrappers when the `try_` body bails out with `None`. -/
def BASIC_FAILURE_MSG : String :=
  IRC_MAGENTA ++ "Translator Error: Basic failure retrieving channel " ++
  "information, or unable to strip original message."

/-- `on_cmd_lsay`: runs `try_on_cmd_lsay` and, when it bails out with
`None`, prints the basic-failure diagnostic and consumes the command. -/
def on_cmd_lsay (h : Host) (word word_eol : List String) (cmd : String)
    (m : ChanMap) : RustOutcome (Eat × List String × Option LsayJob) :=
  match try_on_cmd_lsay h word word_eol cmd m with
  | RustOutcome.ok (some (eat, job)) => RustOutcome.ok (eat, [], job)
  | RustOutcome.ok Option.none => RustOutcome.ok (Eat.all, [BASIC_FAILURE_MSG], Option.none)
  | RustOutcome.panicked => RustOutcome.panicked

/-- `try_on_recv_message`: passes the event through untouched when it has
fewer than two fields or ends with the re-entrancy marker `"~"`; otherwise
resolves the active pair (passing through when none), captures the event
data into a `RecvJob` and suppresses Hexchat's default rendering with
`Eat::Hexchat`. -/
def try_on_recv_message (h : Host) (word : List String) (event : String)
    (m : ChanMap) : Option (Eat × Option RecvJob) :=
  if word.length < 2 ∨ word.getLast? = some "~" then
    some (Eat.eat_none, Option.none)
  else
    match get_channel_langs h m with
    | some chan_langs =>
        let sender := word.getD 0 ""
        let message := word.getD 1 ""
        let msg_type := event
        let mode_char := if word.length > 2 then word.getD 2 "" else ""
        let src_lang := chan_langs.1
        let tgt_lang := chan_langs.2
        match h.strip message with
        | Option.none => Option.none
        | some strip_msg =>
            match h.network, h.channel with
            | some network, some channel =>
                some (Eat.hexchat,
                  some { msg_type := msg_type, ctx := (network, channel),
                         sender := sender, message := message,
                         strip_msg := strip_msg, mode_char := mode_char,
                         src_lang := src_lang, tgt_lang := tgt_lang })
            | _, _ => Option.none
    | Option.none => some (Eat.eat_none, Option.none)

/-- `on_recv_message`: runs `try_on_recv_message` and, when it bails out
with `None`, prints the basic-failure diagnostic and returns
`Eat::Hexchat`. -/
def on_recv_message (h : Host) (word : List String) (event : String)
    (m : ChanMap) : Eat × List String × Option RecvJob :=
  match try_on_recv_message h word event m with
  | some (eat, job) => (eat, [], job)
  | Option.none => (Eat.hexchat, [BASIC_FAILURE_MSG], Option.none)

/-- The host seen by a command issued via `ctx.command(…)`: the located
context `(network, channel)` is the current context of that command. -/
def ctxHost (ctx : ChanData) : Host :=
  { network := some ctx.1, channel := some ctx.2, strip := fun s => some s }

/-- The `main_thread` closure of the `/LSAY` / `/LME` worker: re-locate
the context (only a main-window diagnostic when it vanished); issue the
underlying `SAY`/`ME` command with the (translated or fallback) payload,
print the original locally, print the error annotation when there is one
and, when the failure was rate-limiting, run `OFFLANG` in that context. -/
def lsay_deliver (find_context : ChanData → Bool) (j : LsayJob)
    (msg : String) (emsg : Option String) (is_over_limit : Bool)
    (m : ChanMap) : ChanMap × List HostAction :=
  if find_context j.ctx then
    let acts := [HostAction.command j.ctx (j.cmd ++ " " ++ msg),
                 HostAction.printCtx j.ctx (IRC_CYAN ++ j.message)]
    match emsg with
    | some em =>
        if is_over_limit then
          let off := on_cmd_offlang (ctxHost j.ctx) ["OFFLANG"] m
          (off.map,
           acts ++ [HostAction.printCtx j.ctx em] ++
             off.output.map (HostAction.printCtx j.ctx))
        else
          (m, acts ++ [HostAction.printCtx j.ctx em])
    | Option.none => (m, acts)
  else
    (m, [HostAction.printMain (IRC_MAGENTA ++ "Failed to get context.")])

/-- The `/LSAY` / `/LME` worker-thread body: translate the stripped text
from the session's source to its target language, fall back to the error's
partial translation on failure, then marshal back. -/
def run_lsay_job (api_key : Option String) (http : DeepLRequest → HttpOutcome)
    (find_context : ChanData → Bool) (j : LsayJob) (m : ChanMap) :
    ChanMap × List HostAction :=
  match deepl_translate api_key http j.strip_msg j.src_lang j.tgt_lang with
  | Except.ok translated =>
      lsay_deliver find_context j translated Option.none false m
  | Except.error err =>
      lsay_deliver find_context j err.get_partial_trans
        (some (IRC_MAGENTA ++ err.display)) err.is_over_limit m

/-- The `main_thread` closure of the text-event worker: re-locate the
context; re-emit the same event kind with the translated (or fallback)
text, the preserved mode character when the event carried one, and the
trailing re-entrancy marker `"~"`; print the original beneath; print the
error annotation when there is one, running `OFFLANG` in that context when
the failure was rate-limiting. -/
def recv_deliver (find_context : ChanData → Bool) (j : RecvJob)
    (msg : String) (emsg : Option String) (is_over_limit : Bool)
    (m : ChanMap) : ChanMap × List HostAction :=
  if find_context j.ctx then
    let emitted :=
      if j.mode_char ≠ "" then
        HostAction.emitPrint j.ctx j.msg_type [j.sender, msg, j.mode_char, "~"]
      else
        HostAction.emitPrint j.ctx j.msg_type [j.sender, msg, "~"]
    let acts := [emitted, HostAction.printCtx j.ctx (IRC_CYAN ++ j.message)]
    match emsg with
    | some em =>
        if is_over_limit then
          let off := on_cmd_offlang (ctxHost j.ctx) ["OFFLANG"] m
          (off.map,
           acts ++ [HostAction.printCtx j.ctx em] ++
             off.output.map (HostAction.printCtx j.ctx))
        else
          (m, acts ++ [HostAction.printCtx j.ctx em])
    | Option.none => (m, acts)
  else
    (m, [HostAction.printMain "Failed to get context."])

/-- The text-event worker-thread body: translate the stripped text with
the session pair reversed (their text into the user's language), fall back
to the partial translation on failure, then marshal back. -/
def run_recv_job (api_key : Option String) (http : DeepLRequest → HttpOutcome)
    (find_context : ChanData → Bool) (j : RecvJob) (m : ChanMap) :
    ChanMap × List HostAction :=
  match deepl_translate api_key http j.strip_msg j.tgt_lang j.src_lang with
  | Except.ok translated =>
      recv_deliver find_context j translated Option.none false m
  | Except.error err =>
      recv_deliver find_context j err.get_partial_trans
        (some (IRC_MAGENTA ++ err.display)) err.is_over_limit m

/-! ## Map lemmas -/

theorem mapGet_insert (m : ChanMap) (k v : ChanData) :
    mapGet (mapInsert m k v) k = some v := by
  simp [mapGet, mapInsert, List.find?_cons]

theorem mapGet_remove (m : ChanMap) (k : ChanData) :
    mapGet (mapRemove m k) k = Option.none := by
  induction m with
  | nil => rfl
  | cons p t ih =>
      by_cases hp : p.1 = k
      · have hstep : mapRemove (p :: t) k = mapRemove t k := by
          simp [mapRemove, List.filter_cons, hp]
        rw [hstep]
        exact ih
      · have hstep : mapRemove (p :: t) k = p :: mapRemove t k := by
          simp [mapRemove, List.filter_cons, hp]
        rw [hstep, mapGet, List.find?_cons_of_neg _ (by simpa using hp), ← mapGet]
        exact ih

theorem mapRemove_absent (m : ChanMap) (k : ChanData)
    (h : mapGet m k = Option.none) : mapRemove m k = m := by
  induction m with
  | nil => rfl
  | cons p t ih =>
      by_cases hp : p.1 = k
      · rw [mapGet, List.find?_cons_of_pos _ (by simpa using hp)] at h
        simp at h
      · have ht : mapGet t k = Option.none := by
          rwa [mapGet, List.find?_cons_of_neg _ (by simpa using hp)] at h
        have hstep : mapRemove (p :: t) k = p :: mapRemove t k := by
          simp [mapRemove, List.filter_cons, hp]
        rw [hstep, ih ht]

/-! ## Claim theorems -/

/-- **C1** — Session-registry semantics: for every channel key and
language pair, after `activate` a lookup returns the pair; a second
`activate` overwrites, so the lookup returns the newer pair; after
`deactivate` the lookup returns `None`; `deactivate` prints no error, and
on a key absent from the map it leaves the map unchanged. -/
theorem c1_session_registry (network channel : String) (st : String → Option String)
    (m : ChanMap) (p p2 : ChanData) :
    get_channel_langs ⟨some network, some channel, st⟩
        (activate ⟨some network, some channel, st⟩ m p.1 p.2).1 = some p
    ∧ get_channel_langs ⟨some network, some channel, st⟩
        (activate ⟨some network, some channel, st⟩
          (activate ⟨some network, some channel, st⟩ m p.1 p.2).1 p2.1 p2.2).1 = some p2
    ∧ get_channel_langs ⟨some network, some channel, st⟩
        (deactivate ⟨some network, some channel, st⟩ m).1 = Option.none
    ∧ (deactivate ⟨some network, some channel, st⟩ m).2 = []
    ∧ (get_channel_langs ⟨some network, some channel, st⟩ m = Option.none →
        (deactivate ⟨some network, some channel, st⟩ m).1 = m) := by
  refine ⟨?_, ?_, ?_, rfl, ?_⟩
  · simpa [get_channel_langs, activate] using mapGet_insert m (network, channel) p
  · simpa [get_channel_langs, activate] using
      mapGet_insert (mapInsert m (network, channel) p) (network, channel) p2
  · simpa [get_channel_langs, deactivate] using mapGet_remove m (network, channel)
  · intro habs
    simpa [deactivate] using
      mapRemove_absent m (network, channel) (by simpa [get_channel_langs] using habs)

theorem c1_session_registry_witness :
    get_channel_langs ⟨some "net", some "chan", fun s => some s⟩ [] = Option.none
    ∧ (deactivate ⟨some "net", some "chan", fun s => some s⟩ ([] : ChanMap)).1 = [] :=
  ⟨rfl,
   (c1_session_registry "net" "chan" (fun s => some s) [] ("en", "de") ("fr", "it")).2.2.2.2 rfl⟩

/-- Every catalog entry is found by `List.find?` both under its lowercased
display name and under its code (first match in declaration order). -/
theorem catalog_entries_found :
    ∀ e ∈ SUPPORTED_LANGUAGES,
      SUPPORTED_LANGUAGES.find?
        (fun i => to_lowercase e.1 == to_lowercase i.1 || to_lowercase e.1 == i.2) = some e
      ∧ SUPPORTED_LANGUAGES.find?
        (fun i => e.2 == to_lowercase i.1 || e.2 == i.2) = some e := by decide

/-- **C4** — Catalog lookup: for every entry of the supported-language
table, looking up its display name in any letter case (any token whose
lowercasing equals the name's lowercasing) and looking up its short code
in any letter case both return that entry, the first matching entry in
declaration order winning; looking up the unregistered token `"xx"`
returns none. -/
theorem c4_catalog_lookup :
    (∀ e ∈ SUPPORTED_LANGUAGES, ∀ s : String,
        to_lowercase s = to_lowercase e.1 ∨ to_lowercase s = e.2 → find_lang s = some e)
    ∧ find_lang "xx" = Option.none := by
  constructor
  · intro e he s hs
    have h := catalog_entries_found e he
    rcases hs with hs | hs
    · simp only [find_lang]
      rw [hs]
      exact h.1
    · simp only [find_lang]
      rw [hs]
      exact h.2
  · decide

theorem c4_catalog_lookup_witness :
    (("English", "en") ∈ SUPPORTED_LANGUAGES ∧ to_lowercase "EN" = "en")
    ∧ find_lang "EN" = some ("English", "en") :=
  ⟨⟨by decide, by decide⟩,
   c4_catalog_lookup.1 ("English", "en") (by decide) "EN" (Or.inr (by decide))⟩

/-- Every error produced by `deepl_translate` carries the original input
text as its partial translation. -/
theorem translate_error_partial (api_key : Option String)
    (http : DeepLRequest → HttpOutcome) (text source target : String)
    (e : TranslationError)
    (hdt : deepl_translate api_key http text source target = Except.error e) :
    e.partial_trans = text := by
  cases api_key with
  | none =>
      simp only [deepl_translate, Except.error.injEq] at hdt
      subst hdt
      rfl
  | some k =>
      cases hh : http (mk_request text source target) with
      | ok parse =>
          cases parse with
          | ok resp =>
              cases hhead : resp.translations.head? with
              | none =>
                  simp only [deepl_translate, hh, hhead, Except.error.injEq] at hdt
                  subst hdt
                  rfl
              | some tr =>
                  simp only [deepl_translate, hh, hhead] at hdt
                  exact Except.noConfusion hdt
          | error perr =>
              simp only [deepl_translate, hh, Except.error.injEq] at hdt
              subst hdt
              rfl
      | err uerr =>
          simp only [deepl_translate, hh, Except.error.injEq] at hdt
          subst hdt
          rfl

/-- **C2** — Rate-limit handling: an attempt is classified over-limit
exactly when a key was configured and the HTTP transport reported status
403 or 429 (credential, parse, empty-response and transport failures are
not); and whenever a marshal-backed result carries the over-limit flag
(and the context is still locatable), the session for that context is
deactivated, so a subsequent lookup of it returns `None`. -/
theorem c2_rate_limit_handling :
    (∀ (api_key : Option String) (http : DeepLRequest → HttpOutcome)
        (text source target : String) (e : TranslationError),
        deepl_translate api_key http text source target = Except.error e →
        (e.over_limit = true ↔
          api_key ≠ Option.none ∧
          ∃ code msg,
            http (mk_request text source target) = HttpOutcome.err (UreqError.status code msg)
            ∧ (code = 403 ∨ code = 429)))
    ∧ (∀ (api_key : Option String) (http : DeepLRequest → HttpOutcome)
        (find_context : ChanData → Bool) (j : LsayJob) (m : ChanMap)
        (e : TranslationError),
        deepl_translate api_key http j.strip_msg j.src_lang j.tgt_lang = Except.error e →
        e.over_limit = true → find_context j.ctx = true →
        mapGet (run_lsay_job api_key http find_context j m).1 j.ctx = Option.none)
    ∧ (∀ (api_key : Option String) (http : DeepLRequest → HttpOutcome)
        (find_context : ChanData → Bool) (j : RecvJob) (m : ChanMap)
        (e : TranslationError),
        deepl_translate api_key http j.strip_msg j.tgt_lang j.src_lang = Except.error e →
        e.over_limit = true → find_context j.ctx = true →
        mapGet (run_recv_job api_key http find_context j m).1 j.ctx = Option.none) := by
  refine ⟨?_, ?_, ?_⟩
  · intro api_key http text source target e hdt
    cases api_key with
    | none =>
        simp only [deepl_translate, Except.error.injEq] at hdt
        simp [← hdt, TranslationError.new]
    | some k =>
        cases hh : http (mk_request text source target) with
        | ok parse =>
            cases parse with
            | ok resp =>
                cases hhead : resp.translations.head? with
                | none =>
                    simp only [deepl_translate, hh, hhead, Except.error.injEq] at hdt
                    simp [← hdt, TranslationError.new, hh]
                | some tr =>
                    simp only [deepl_translate, hh, hhead] at hdt
                    exact Except.noConfusion hdt
            | error perr =>
                simp only [deepl_translate, hh, Except.error.injEq] at hdt
                simp [← hdt, TranslationError.new, hh]
        | err uerr =>
            cases uerr with
            | status code msg =>
                simp only [deepl_translate, hh, Except.error.injEq] at hdt
                simp [← hdt, TranslationError.new, hh]
            | transport msg =>
                simp only [deepl_translate, hh, Except.error.injEq] at hdt
                simp [← hdt, TranslationError.new, hh]
  · intro api_key http find_context j m e hdt hover hfind
    have hremove :
        (run_lsay_job api_key http find_context j m).1 = mapRemove m j.ctx := by
      simp [run_lsay_job, hdt, lsay_deliver, hfind, TranslationError.is_over_limit,
        hover, on_cmd_offlang, ctxHost, deactivate, Prod.mk.eta]
    rw [hremove]
    exact mapGet_remove m j.ctx
  · intro api_key http find_context j m e hdt hover hfind
    have hremove :
        (run_recv_job api_key http find_context j m).1 = mapRemove m j.ctx := by
      simp [run_recv_job, hdt, recv_deliver, hfind, TranslationError.is_over_limit,
        hover, on_cmd_offlang, ctxHost, deactivate, Prod.mk.eta]
    rw [hremove]
    exact mapGet_remove m j.ctx

theorem c2_rate_limit_handling_witness :
    deepl_translate (some "k") (fun _ => HttpOutcome.err (UreqError.status 429 "quota"))
        "hi" "en" "de" = Except.error ⟨"hi", "DeepL API request failed: quota", true⟩
    ∧ mapGet (run_lsay_job (some "k")
        (fun _ => HttpOutcome.err (UreqError.status 429 "quota")) (fun _ => true)
        ⟨"SAY", ("n", "c"), "hi", "hi", "en", "de"⟩
        [(("n", "c"), ("en", "de"))]).1 ("n", "c") = Option.none :=
  ⟨rfl,
   c2_rate_limit_handling.2.1 (some "k")
     (fun _ => HttpOutcome.err (UreqError.status 429 "quota")) (fun _ => true)
     ⟨"SAY", ("n", "c"), "hi", "hi", "en", "de"⟩ [(("n", "c"), ("en", "de"))]
     ⟨"hi", "DeepL API request failed: quota", true⟩ rfl rfl rfl⟩

/-- **C5** — Message-never-dropped: every failing translation attempt
carries the original input text as its partial result, and on failure the
outgoing workflow sends exactly that text as the command payload while the
incoming workflow re-emits it as the event's message field, so the user's
message is never silently lost. -/
theorem c5_message_never_dropped :
    (∀ (api_key : Option String) (http : DeepLRequest → HttpOutcome)
        (text source target : String) (e : TranslationError),
        deepl_translate api_key http text source target = Except.error e →
        e.get_partial_trans = text)
    ∧ (∀ (api_key : Option String) (http : DeepLRequest → HttpOutcome)
        (find_context : ChanData → Bool) (j : LsayJob) (m : ChanMap)
        (e : TranslationError),
        deepl_translate api_key http j.strip_msg j.src_lang j.tgt_lang = Except.error e →
        find_context j.ctx = true →
        (run_lsay_job api_key http find_context j m).2.head? =
          some (HostAction.command j.ctx (j.cmd ++ " " ++ j.strip_msg)))
    ∧ (∀ (api_key : Option String) (http : DeepLRequest → HttpOutcome)
        (find_context : ChanData → Bool) (j : RecvJob) (m : ChanMap)
        (e : TranslationError),
        deepl_translate api_key http j.strip_msg j.tgt_lang j.src_lang = Except.error e →
        find_context j.ctx = true →
        (run_recv_job api_key http find_context j m).2.head? =
          some (HostAction.emitPrint j.ctx j.msg_type
            (if j.mode_char ≠ "" then [j.sender, j.strip_msg, j.mode_char, "~"]
             else [j.sender, j.strip_msg, "~"]))) := by
  refine ⟨?_, ?_, ?_⟩
  · intro api_key http text source target e hdt
    exact translate_error_partial api_key http text source target e hdt
  · intro api_key http find_context j m e hdt hfind
    have hpart : e.get_partial_trans = j.strip_msg :=
      translate_error_partial _ _ _ _ _ _ hdt
    cases ho : e.is_over_limit with
    | true =>
        simp [run_lsay_job, hdt, lsay_deliver, hfind, ho, hpart]
    | false =>
        simp [run_lsay_job, hdt, lsay_deliver, hfind, ho, hpart]
  · intro api_key http find_context j m e hdt hfind
    have hpart : e.get_partial_trans = j.strip_msg :=
      translate_error_partial _ _ _ _ _ _ hdt
    cases ho : e.is_over_limit with
    | true =>
        by_cases hm : j.mode_char = ""
        · simp [run_recv_job, hdt, recv_deliver, hfind, ho, hpart, hm]
        · simp [run_recv_job, hdt, recv_deliver, hfind, ho, hpart, hm]
    | false =>
        by_cases hm : j.mode_char = ""
        · simp [run_recv_job, hdt, recv_deliver, hfind, ho, hpart, hm]
        · simp [run_recv_job, hdt, recv_deliver, hfind, ho, hpart, hm]

theorem c5_message_never_dropped_witness :
    deepl_translate Option.none (fun _ => HttpOutcome.err (UreqError.transport "t"))
        "hi" "en" "de" =
      Except.error ⟨"hi",
        "DeepL API key not found. Set DEEPL_API_KEY environment variable.", false⟩
    ∧ (run_lsay_job Option.none (fun _ => HttpOutcome.err (UreqError.transport "t"))
        (fun _ => true) ⟨"SAY", ("n", "c"), "hi", "hi", "en", "de"⟩ []).2.head? =
      some (HostAction.command ("n", "c") ("SAY" ++ " " ++ "hi")) :=
  ⟨rfl,
   c5_message_never_dropped.2.1 Option.none
     (fun _ => HttpOutcome.err (UreqError.transport "t")) (fun _ => true)
     ⟨"SAY", ("n", "c"), "hi", "hi", "en", "de"⟩ []
     ⟨"hi", "DeepL API key not found. Set DEEPL_API_KEY environment variable.", false⟩
     rfl rfl⟩

/-- Every event re-emitted by the incoming marshal-back closure carries
the re-entrancy marker `"~"` as its last field. -/
theorem recv_deliver_emit_marked (find_context : ChanData → Bool) (j : RecvJob)
    (msg : String) (emsg : Option String) (over : Bool) (m : ChanMap)
    (ctx : ChanData) (ev : String) (fields : List String)
    (hmem : HostAction.emitPrint ctx ev fields ∈
      (recv_deliver find_context j msg emsg over m).2) :
    fields.getLast? = some "~" := by
  by_cases hf : find_context j.ctx = true
  · by_cases hm : j.mode_char = ""
    · rcases emsg with _ | em
      · simp [recv_deliver, hf, hm] at hmem
        rcases hmem with ⟨_, _, hfields⟩
        subst hfields
        rfl
      · cases over with
        | true =>
            simp [recv_deliver, hf, hm, on_cmd_offlang, ctxHost, deactivate] at hmem
            rcases hmem with ⟨_, _, hfields⟩
            subst hfields
            rfl
        | false =>
            simp [recv_deliver, hf, hm] at hmem
            rcases hmem with ⟨_, _, hfields⟩
            subst hfields
            rfl
    · rcases emsg with _ | em
      · simp [recv_deliver, hf, hm] at hmem
        rcases hmem with ⟨_, _, hfields⟩
        subst hfields
        rfl
      · cases over with
        | true =>
            simp [recv_deliver, hf, hm, on_cmd_offlang, ctxHost, deactivate] at hmem
            rcases hmem with ⟨_, _, hfields⟩
            subst hfields
            rfl
        | false =>
            simp [recv_deliver, hf, hm] at hmem
            rcases hmem with ⟨_, _, hfields⟩
            subst hfields
            rfl
  · simp [recv_deliver, hf] at hmem

/-- **C7** — Re-entrancy guard: an incoming text event whose last field is
the marker `"~"` is passed through unmodified with nothing dispatched, and
every event re-emitted by the dispatch core carries `"~"` as its last
field, so a re-emitted translated event never triggers a second
translation of itself. -/
theorem c7_reentrancy_guard :
    (∀ (h : Host) (word : List String) (event : String) (m : ChanMap),
        word.getLast? = some "~" →
        try_on_recv_message h word event m = some (Eat.eat_none, Option.none))
    ∧ (∀ (api_key : Option String) (http : DeepLRequest → HttpOutcome)
        (find_context : ChanData → Bool) (j : RecvJob) (m : ChanMap)
        (ctx : ChanData) (ev : String) (fields : List String),
        HostAction.emitPrint ctx ev fields ∈ (run_recv_job api_key http find_context j m).2 →
        fields.getLast? = some "~"
        ∧ ∀ (h2 : Host) (m2 : ChanMap),
            try_on_recv_message h2 fields ev m2 = some (Eat.eat_none, Option.none)) := by
  constructor
  · intro h word event m hlast
    rw [try_on_recv_message, if_pos (Or.inr hlast)]
  · intro api_key http find_context j m ctx ev fields hmem
    have hlast : fields.getLast? = some "~" := by
      cases hdt : deepl_translate api_key http j.strip_msg j.tgt_lang j.src_lang with
      | ok translated =>
          exact recv_deliver_emit_marked find_context j translated Option.none false m
            ctx ev fields (by simpa [run_recv_job, hdt] using hmem)
      | error err2 =>
          exact recv_deliver_emit_marked find_context j err2.get_partial_trans
            (some (IRC_MAGENTA ++ err2.display)) err2.is_over_limit m
            ctx ev fields (by simpa [run_recv_job, hdt] using hmem)
    refine ⟨hlast, ?_⟩
    intro h2 m2
    rw [try_on_recv_message, if_pos (Or.inr hlast)]

theorem c7_reentrancy_guard_witness :
    (HostAction.emitPrint ("n", "c") "Channel Message" ["Bob", "X", "~"] ∈
      (run_recv_job (some "k") (fun _ => HttpOutcome.ok (Except.ok ⟨[⟨"X"⟩]⟩))
        (fun _ => true)
        ⟨"Channel Message", ("n", "c"), "Bob", "Guten Tag", "Guten Tag", "", "en", "de"⟩
        []).2)
    ∧ (["Bob", "X", "~"] : List String).getLast? = some "~"
    ∧ try_on_recv_message ⟨some "n", some "c", fun s => some s⟩ ["Bob", "X", "~"]
        "Channel Message" [] = some (Eat.eat_none, Option.none) :=
  ⟨by decide,
   (c7_reentrancy_guard.2 (some "k") (fun _ => HttpOutcome.ok (Except.ok ⟨[⟨"X"⟩]⟩))
     (fun _ => true)
     ⟨"Channel Message", ("n", "c"), "Bob", "Guten Tag", "Guten Tag", "", "en", "de"⟩
     [] ("n", "c") "Channel Message" ["Bob", "X", "~"] (by decide)).1,
   (c7_reentrancy_guard.2 (some "k") (fun _ => HttpOutcome.ok (Except.ok ⟨[⟨"X"⟩]⟩))
     (fun _ => true)
     ⟨"Channel Message", ("n", "c"), "Bob", "Guten Tag", "Guten Tag", "", "en", "de"⟩
     [] ("n", "c") "Channel Message" ["Bob", "X", "~"] (by decide)).2
     ⟨some "n", some "c", fun s => some s⟩ []⟩

/-- A textual record of the language fields of a `DeepLRequest`, used by
the `probe_http` test oracle. -/
def req_tag (r : DeepLRequest) : String :=
  (match r.source_lang with
   | some s => s
   | Option.none => "omitted") ++ "->" ++ r.target_lang

/-- A test oracle whose successful "translation" is a record of the
request it received, letting theorems observe exactly which request
reaches the network boundary. -/
def probe_http (r : DeepLRequest) : HttpOutcome :=
  HttpOutcome.ok (Except.ok ⟨[⟨req_tag r⟩]⟩)

/-- With the probe oracle, `deepl_translate` succeeds with the record of
the request it built from its arguments. -/
theorem deepl_translate_probe (k text a b : String) :
    deepl_translate (some k) probe_http text a b =
      Except.ok (req_tag (mk_request text a b)) := rfl

/-- **C8** — Translation direction: the outgoing (LSAY/LME) handler
captures a session `(s, t)` as source `s`, target `t`, and its worker
queries the backend with the request built from `(text, s, t)`; the
incoming handler captures the same `(s, t)` but its worker queries the
backend with the reversed request built from `(text, t, s)`. -/
theorem c8_translation_direction :
    (∀ (h : Host) (word word_eol : List String) (cmd : String) (m : ChanMap)
        (n c s t msg sm : String),
        h.network = some n → h.channel = some c →
        mapGet m (n, c) = some (s, t) →
        word_eol.get? 1 = some msg → h.strip msg = some sm →
        try_on_cmd_lsay h word word_eol cmd m =
          RustOutcome.ok (some (Eat.all, some ⟨cmd, (n, c), sm, msg, s, t⟩)))
    ∧ (∀ (k : String) (find_context : ChanData → Bool) (j : LsayJob) (m2 : ChanMap),
        find_context j.ctx = true →
        (run_lsay_job (some k) probe_http find_context j m2).2.head? =
          some (HostAction.command j.ctx
            (j.cmd ++ " " ++ req_tag (mk_request j.strip_msg j.src_lang j.tgt_lang))))
    ∧ (∀ (h : Host) (word : List String) (event : String) (m : ChanMap)
        (n c s t sm : String),
        2 ≤ word.length → word.getLast? ≠ some "~" →
        h.network = some n → h.channel = some c →
        mapGet m (n, c) = some (s, t) →
        h.strip (word.getD 1 "") = some sm →
        try_on_recv_message h word event m =
          some (Eat.hexchat, some ⟨event, (n, c), word.getD 0 "", word.getD 1 "", sm,
            if word.length > 2 then word.getD 2 "" else "", s, t⟩))
    ∧ (∀ (k : String) (find_context : ChanData → Bool) (j : RecvJob) (m2 : ChanMap),
        find_context j.ctx = true →
        (run_recv_job (some k) probe_http find_context j m2).2.head? =
          some (HostAction.emitPrint j.ctx j.msg_type
            (if j.mode_char ≠ "" then
              [j.sender, req_tag (mk_request j.strip_msg j.tgt_lang j.src_lang),
               j.mode_char, "~"]
             else
              [j.sender, req_tag (mk_request j.strip_msg j.tgt_lang j.src_lang), "~"]))) := by
  refine ⟨?_, ?_, ?_, ?_⟩
  · intro h word word_eol cmd m n c s t msg sm hn hc hmap hmsg hstrip
    rw [List.get?_eq_getElem?] at hmsg
    simp [try_on_cmd_lsay, get_channel_langs, hn, hc, hmap, hmsg, hstrip]
  · intro k find_context j m2 hfind
    rw [run_lsay_job, deepl_translate_probe]
    simp [lsay_deliver, hfind]
  · intro h word event m n c s t sm hlen hne hn hc hmap hstrip
    have hcond : ¬(word.length < 2 ∨ word.getLast? = some "~") := by
      push_neg
      exact ⟨by omega, hne⟩
    rw [List.getD_eq_getElem?_getD] at hstrip
    simp [try_on_recv_message, get_channel_langs, hcond, hn, hc, hmap, hstrip]
  · intro k find_context j m2 hfind
    rw [run_recv_job, deepl_translate_probe]
    by_cases hm : j.mode_char = ""
    · simp [recv_deliver, hfind, hm]
    · simp [recv_deliver, hfind, hm]

theorem c8_translation_direction_witness :
    ((fun _ => true : ChanData → Bool) ("n", "c") = true)
    ∧ (run_lsay_job (some "k") probe_http (fun _ => true)
        ⟨"SAY", ("n", "c"), "hi", "hi", "en", "de"⟩ []).2.head? =
      some (HostAction.command ("n", "c")
        ("SAY" ++ " " ++ req_tag (mk_request "hi" "en" "de"))) :=
  ⟨rfl,
   c8_translation_direction.2.1 "k" (fun _ => true)
     ⟨"SAY", ("n", "c"), "hi", "hi", "en", "de"⟩ [] rfl⟩

/-- **C3** — SETLANG postcondition: with exactly two argument tokens, if
both resolve in the catalog to the same entry (any alias or case
combination) the command is rejected with the bad-parameters diagnostic
and the map is unchanged; if they resolve to two distinct entries, the
current context's session is activated storing the catalog's canonical
short codes. -/
theorem c3_setlang_postcondition (network channel : String) (st : String → Option String)
    (m : ChanMap) (cmdname a b : String) :
    (∀ e, find_lang a = some e → find_lang b = some e →
        on_cmd_setlang ⟨some network, some channel, st⟩ [cmdname, a, b] m =
          { eat := Eat.all, map := m, output := [BAD_PARAMS_MSG] })
    ∧ (∀ e1 e2, find_lang a = some e1 → find_lang b = some e2 → e1 ≠ e2 →
        (on_cmd_setlang ⟨some network, some channel, st⟩ [cmdname, a, b] m).map =
            mapInsert m (network, channel) (e1.2, e2.2)
        ∧ get_channel_langs ⟨some network, some channel, st⟩
              (on_cmd_setlang ⟨some network, some channel, st⟩ [cmdname, a, b] m).map =
            some (e1.2, e2.2)) := by
  constructor
  · intro e ha hb
    simp [on_cmd_setlang, ha, hb]
  · intro e1 e2 ha hb hne
    have hmap : (on_cmd_setlang ⟨some network, some channel, st⟩ [cmdname, a, b] m).map =
        mapInsert m (network, channel) (e1.2, e2.2) := by
      simp [on_cmd_setlang, ha, hb, hne, activate]
    refine ⟨hmap, ?_⟩
    rw [hmap]
    simpa [get_channel_langs] using mapGet_insert m (network, channel) (e1.2, e2.2)

theorem c3_setlang_postcondition_witness :
    (find_lang "en" = some ("English", "en") ∧ find_lang "EN" = some ("English", "en"))
    ∧ on_cmd_setlang ⟨some "net", some "chan", fun s => some s⟩ ["SETLANG", "en", "EN"] [] =
        { eat := Eat.all, map := [], output := [BAD_PARAMS_MSG] } :=
  ⟨⟨by decide, by decide⟩,
   (c3_setlang_postcondition "net" "chan" (fun s => some s) [] "SETLANG" "en" "EN").1
     ("English", "en") (by decide) (by decide)⟩

/-- **C6** — Interception is gated on an active session: with no session
for the current context, `/LSAY`-`/LME` return `Eat::None` (fall through
to the host) and the incoming-message handler returns `Eat::None`
(default rendering proceeds); with an active session, the incoming
handler suppresses default rendering with `Eat::Hexchat` and the command
handler fully consumes the command with `Eat::All`. -/
theorem c6_session_gating :
    (∀ (h : Host) (word word_eol : List String) (cmd : String) (m : ChanMap),
        get_channel_langs h m = Option.none →
        on_cmd_lsay h word word_eol cmd m =
          RustOutcome.ok (Eat.eat_none, [], Option.none))
    ∧ (∀ (h : Host) (word : List String) (event : String) (m : ChanMap),
        2 ≤ word.length → word.getLast? ≠ some "~" →
        get_channel_langs h m = Option.none →
        on_recv_message h word event m = (Eat.eat_none, [], Option.none))
    ∧ (∀ (h : Host) (word word_eol : List String) (cmd msg sm : String)
          (m : ChanMap) (p : ChanData),
        get_channel_langs h m = some p →
        word_eol.get? 1 = some msg → h.strip msg = some sm →
        ∃ j, on_cmd_lsay h word word_eol cmd m = RustOutcome.ok (Eat.all, [], some j))
    ∧ (∀ (h : Host) (word : List String) (event sm : String) (m : ChanMap) (p : ChanData),
        2 ≤ word.length → word.getLast? ≠ some "~" →
        get_channel_langs h m = some p →
        h.strip (word.getD 1 "") = some sm →
        ∃ j, on_recv_message h word event m = (Eat.hexchat, [], some j)) := by
  have hctx : ∀ (h : Host) (m : ChanMap) (p : ChanData),
      get_channel_langs h m = some p →
      ∃ n c, h.network = some n ∧ h.channel = some c := by
    intro h m p hp
    rcases hn : h.network with _ | n
    · rw [get_channel_langs, hn] at hp
      exact absurd hp (by simp)
    rcases hc : h.channel with _ | c
    · rw [get_channel_langs, hn, hc] at hp
      exact absurd hp (by simp)
    exact ⟨n, c, rfl, rfl⟩
  refine ⟨?_, ?_, ?_, ?_⟩
  · intro h word word_eol cmd m hnone
    simp [on_cmd_lsay, try_on_cmd_lsay, hnone]
  · intro h word event m hlen hne hnone
    have hcond : ¬(word.length < 2 ∨ word.getLast? = some "~") := by
      push_neg
      exact ⟨by omega, hne⟩
    simp [on_recv_message, try_on_recv_message, hcond, hnone]
  · intro h word word_eol cmd msg sm m p hp hmsg hstrip
    obtain ⟨n, c, hn, hc⟩ := hctx h m p hp
    rw [List.get?_eq_getElem?] at hmsg
    exact ⟨⟨cmd, (n, c), sm, msg, p.1, p.2⟩,
      by simp [on_cmd_lsay, try_on_cmd_lsay, hp, hmsg, hstrip, hn, hc]⟩
  · intro h word event sm m p hlen hne hp hstrip
    obtain ⟨n, c, hn, hc⟩ := hctx h m p hp
    have hcond : ¬(word.length < 2 ∨ word.getLast? = some "~") := by
      push_neg
      exact ⟨by omega, hne⟩
    rw [List.getD_eq_getElem?_getD] at hstrip
    refine ⟨⟨event, (n, c), word.getD 0 "", word.getD 1 "", sm,
      if word.length > 2 then word.getD 2 "" else "", p.1, p.2⟩, ?_⟩
    simp [on_recv_message, try_on_recv_message, hcond, hp, hstrip, hn, hc]

theorem c6_session_gating_witness :
    get_channel_langs ⟨some "net", some "chan", fun s => some s⟩ [] = Option.none
    ∧ on_cmd_lsay ⟨some "net", some "chan", fun s => some s⟩
        ["LSAY", "hi"] ["LSAY hi", "hi"] "SAY" [] =
        RustOutcome.ok (Eat.eat_none, [], Option.none) :=
  ⟨rfl, c6_session_gating.1 ⟨some "net", some "chan", fun s => some s⟩
    ["LSAY", "hi"] ["LSAY hi", "hi"] "SAY" [] rfl⟩

/-- **C9 counterexample** — `/LSAY` invoked with a malformed argument
count (no message argument) and no active session prints nothing at all —
in particular no usage string — and merely signals not-handled, refuting
the claim that each of the five commands prints a usage string on a
malformed argument count. -/
theorem c9_lsay_prints_no_usage :
    on_cmd_lsay ⟨some "net", some "chan", fun s => some s⟩ ["LSAY"] ["LSAY"] "SAY" [] =
      RustOutcome.ok (Eat.eat_none, [], Option.none) := rfl

/-- **C9 (amended)** — SETLANG and OFFLANG, invoked with a malformed
argument count, print `"USAGE: "` plus their help string and take no
other action (map unchanged, nothing dispatched); LISTLANG prints the
bare prefix `"USAGE: "`; LSAY/LME perform no argument-count check at all —
with no active session they fall through not-handled with no output and
no background dispatch. -/
theorem c9_usage_handling :
    (∀ (h : Host) (word : List String) (m : ChanMap), word.length ≠ 3 →
        on_cmd_setlang h word m =
          { eat := Eat.all, map := m, output := ["USAGE: " ++ SETLANG_HELP] })
    ∧ (∀ (h : Host) (word : List String) (m : ChanMap), word.length ≠ 1 →
        on_cmd_offlang h word m =
          { eat := Eat.all, map := m, output := ["USAGE: " ++ OFFLANG_HELP] })
    ∧ (∀ (word : List String), word.length ≠ 1 →
        on_cmd_listlang word = (Eat.all, ["USAGE: "]))
    ∧ (∀ (h : Host) (word word_eol : List String) (cmd : String) (m : ChanMap),
        get_channel_langs h m = Option.none →
        on_cmd_lsay h word word_eol cmd m =
          RustOutcome.ok (Eat.eat_none, [], Option.none)) := by
  refine ⟨?_, ?_, ?_, ?_⟩
  · intro h word m hlen
    rcases word with _ | ⟨w1, _ | ⟨w2, _ | ⟨w3, _ | ⟨w4, rest⟩⟩⟩⟩
    · rfl
    · rfl
    · rfl
    · exact absurd rfl hlen
    · rfl
  · intro h word m hlen
    rw [on_cmd_offlang, if_neg hlen]
  · intro word hlen
    rw [on_cmd_listlang, if_neg hlen]
  · intro h word word_eol cmd m hnone
    simp [on_cmd_lsay, try_on_cmd_lsay, hnone]

theorem c9_usage_handling_witness :
    (["SETLANG", "en"] : List String).length ≠ 3
    ∧ on_cmd_setlang ⟨some "net", some "chan", fun s => some s⟩ ["SETLANG", "en"] [] =
        { eat := Eat.all, map := [], output := ["USAGE: " ++ SETLANG_HELP] } :=
  ⟨by decide,
   c9_usage_handling.1 ⟨some "net", some "chan", fun s => some s⟩
     ["SETLANG", "en"] [] (by decide)⟩

/-- **C10** — Catalog lookup of the empty-string token does not return
none: `find_lang ""` returns the trailing sentinel entry `("", "")`,
because the table ends with an empty display-name/code entry matching a
lowercased empty input. -/
theorem c10_empty_token_lookup : find_lang "" = some ("", "") := by decide

end HexchatTranslator
